import Mathlib

/-!
# Verification of the x-reader core (query-id cache, resilient dispatch, response parser)

Shallow embedding of the TypeScript sources of the x-reader repository:

* `src/api/query-ids.ts`   — identifier cache: snapshot freshness, lookup, refresh
* the API client file       — `tryWithQueryIds` dispatch, `getReplies`, paginated helpers
* `src/api/parser.ts`       — response normalisation: text precedence, media, quote recursion

JavaScript-specific behaviour is modelled explicitly: `??` (nullish coalescing) is
`jsNullish`, string truthiness (`if (s)`, where `''` and `undefined`/`null` are falsy)
is `jsTruthyS`, `[...new Set(xs)]` is `dedupList`.  Timestamps are epoch milliseconds
as `Int` (the TS code stores an ISO string and compares via `getTime()`).  Network
effects are passed in as explicit oracles; the cache-refresh side effect of the
dispatch protocol is made observable as a counter in the returned trace.
-/

-- ─────────────────────────────────────────────────────────────────
-- JS-semantics helpers
-- ─────────────────────────────────────────────────────────────────

/-- JS string truthiness for an optional string: `undefined`, `null` and `''` are falsy. -/
def jsTruthyS : Option String → Bool
  | some s => !(s == "")
  | none => false

/-- JS nullish coalescing `a ?? b` (keeps `''`, falls through only on `undefined`/`null`). -/
def jsNullish {α : Type} : Option α → Option α → Option α
  | some a, _ => some a
  | none, b => b

/-- JS `a || b` on two strings (`''` is falsy). -/
def jsStringOr (a b : String) : String := if a = "" then b else a

/-- Order-preserving deduplication, first occurrence wins: `[...new Set(xs)]`. -/
def dedupList (l : List String) : List String :=
  l.foldl (fun acc x => if acc.contains x then acc else acc ++ [x]) []

/-- JS `String.prototype.trim`: strip leading and trailing whitespace.  Implemented
by structural recursion over the character list so that it evaluates inside the
kernel (Lean core's `String.trim` is well-founded and does not reduce). -/
def jsTrim (s : String) : String :=
  String.mk (((s.data.dropWhile Char.isWhitespace).reverse.dropWhile
    Char.isWhitespace).reverse)

/-- JS `String.prototype.startsWith`. -/
def jsStartsWith (s pre : String) : Bool := pre.data.isPrefixOf s.data

/-- JS `String.prototype.slice(0, n)`. -/
def jsSlice (s : String) (n : Nat) : String := String.mk (s.data.take n)

-- ─────────────────────────────────────────────────────────────────
-- Resilient dispatch protocol (`XReaderClient.tryWithQueryIds`)
-- ─────────────────────────────────────────────────────────────────

/-- The shape `doRequest` resolves with: `{ result: T | null; status: number; error?: string }`. -/
structure AttemptOutcome (T : Type) where
  result : Option T
  status : Nat
  error : Option String

/-- `if (error) lastError = error;` — the update only fires for a defined, non-empty string. -/
def updErr (e : Option String) (le : String) : String :=
  match e with
  | some s => if s = "" then le else s
  | none => le

/-- First attempt loop of `tryWithQueryIds` (the loop over `uniqueIds`): returns the
first success if any, the final `lastError`, the final `had404` flag, and the list of
candidate identifiers actually attempted, in order. -/
def phase1Loop {T : Type} (attempt : String → AttemptOutcome T) :
    List String → String → Bool → Option T × String × Bool × List String
  | [], le, h4 => (none, le, h4, [])
  | q :: rest, le, h4 =>
    let r := attempt q
    match r.result with
    | some v => (some v, le, h4, [q])
    | none =>
      let h4' := h4 || decide (r.status = 404)
      let le' := updErr r.error le
      let res := phase1Loop attempt rest le' h4'
      (res.1, res.2.1, res.2.2.1, q :: res.2.2.2)

/-- Retry loop of `tryWithQueryIds` (after the refresh; no 404 tracking there). -/
def phase2Loop {T : Type} (attempt : String → AttemptOutcome T) :
    List String → String → Option T × String × List String
  | [], le => (none, le, [])
  | q :: rest, le =>
    let r := attempt q
    match r.result with
    | some v => (some v, le, [q])
    | none =>
      let le' := updErr r.error le
      let res := phase2Loop attempt rest le'
      (res.1, res.2.1, q :: res.2.2)

/-- Observable trace of one `tryWithQueryIds` call: the returned value or thrown
message, the number of `refreshQueryIds({ force: true })` calls performed, and the
candidate identifiers attempted, in order. -/
structure DispatchTrace (T : Type) where
  outcome : Except String T
  refreshes : Nat
  attempted : List String

/-- `XReaderClient.tryWithQueryIds`.  `ids` is what `getQueryIds(operation)` returned
before any refresh; `refreshResult` is the outcome of the forced
`refreshQueryIds({ force: true })` call — the source awaits it with no try/catch, so
when discovery throws (no bundle URLs found) the retry loop is skipped and the error
propagates out of the dispatch call; `freshIds` is what `getQueryIds(operation)`
returns after a normally returning refresh; `attempt1`/`attempt2` give the outcome of
`doRequest(qid)` before/after the refresh. -/
def tryWithQueryIds {T : Type} (operation : String) (ids extraIds : List String)
    (refreshResult : Except String Unit) (freshIds : List String)
    (attempt1 attempt2 : String → AttemptOutcome T) : DispatchTrace T :=
  let uniqueIds := dedupList (ids ++ extraIds)
  let p1 := phase1Loop attempt1 uniqueIds "" false
  match p1.1 with
  | some v => ⟨Except.ok v, 0, p1.2.2.2⟩
  | none =>
    if p1.2.2.1 then
      match refreshResult with
      | Except.error e => ⟨Except.error e, 1, p1.2.2.2⟩
      | Except.ok _ =>
        let p2 := phase2Loop attempt2 freshIds p1.2.1
        match p2.1 with
        | some v => ⟨Except.ok v, 1, p1.2.2.2 ++ p2.2.2⟩
        | none =>
          ⟨Except.error (if p2.2.1 = "" then "Failed to execute " ++ operation else p2.2.1),
            1, p1.2.2.2 ++ p2.2.2⟩
    else
      ⟨Except.error (if p1.2.1 = "" then "Failed to execute " ++ operation else p1.2.1),
        0, p1.2.2.2⟩

-- ─────────────────────────────────────────────────────────────────
-- Identifier cache (`src/api/query-ids.ts`)
-- ─────────────────────────────────────────────────────────────────

/-- `QUERY_ID_TTL_MS` — 24 hours. -/
def QUERY_ID_TTL_MS : Int := 86400000

/-- `DEFAULT_QUERY_IDS` from `src/api/constants.ts`. -/
def DEFAULT_QUERY_IDS : List (String × String) :=
  [("TweetDetail", "97JF30KziU00483E_8elBA"),
   ("SearchTimeline", "M1jEez78PEfVfbQLvlWMvQ"),
   ("UserTweets", "Wms1GvIiHXAPBaCr9KblaA"),
   ("UserArticlesTweets", "8zBy9h4L90aDL02RsBcCFg"),
   ("Bookmarks", "RV1g3b8n_SGOHwkqKYSCFw"),
   ("BookmarkFolderTimeline", "KJIQpsvxrTfRIlbaRIySHQ"),
   ("Following", "BEkNpEt5pNETESoqMsTEGA"),
   ("Followers", "kuFUYP9eV1FPoEy4N-pi7w"),
   ("Likes", "JR2gceKucIKcVNB_9JkhsA"),
   ("HomeTimeline", "edseUwk9sP5Phz__9TIRnA"),
   ("HomeLatestTimeline", "iOEZpOdfekFsxSlPQCQtPg"),
   ("GenericTimelineById", "uGSr7alSjR9v6QJAIaqSKQ"),
   ("AboutAccountQuery", "zs_jFPFT78rBpXv9Z3U2YQ")]

/-- `DISCOVERY_OPERATIONS = Object.keys(DEFAULT_QUERY_IDS)`. -/
def DISCOVERY_OPERATIONS : List String := DEFAULT_QUERY_IDS.map Prod.fst

/-- `DISCOVERY_PAGES` from `src/api/constants.ts`. -/
def DISCOVERY_PAGES : List String :=
  ["https://x.com/?lang=en", "https://x.com/explore", "https://x.com/notifications",
   "https://x.com/settings/profile"]

/-- JS object property read `obj[key]` for a string-keyed record modelled as an
association list (keys unique by the snapshot invariant). -/
def lookupStr (l : List (String × String)) (k : String) : Option String :=
  match l.find? (fun p => p.1 == k) with
  | some p => some p.2
  | none => none

/-- The persisted cache document (`QueryIdCache`).  `fetchedAt` is the epoch-millisecond
value of the stored ISO timestamp. -/
structure QueryIdCache where
  fetchedAt : Int
  ttlMs : Int
  ids : List (String × String)
  pages : List String
  bundles : List String

/-- `SnapshotInfo` as returned by `getSnapshotInfo` (cache path omitted: pure model). -/
structure SnapshotInfo where
  snapshot : QueryIdCache
  ageMs : Int
  isFresh : Bool

/-- `getSnapshotInfo`, given the current time and the (lazily loaded) in-memory cache.
`isFresh: age <= (memoryCache.ttlMs || QUERY_ID_TTL_MS)`; `ageMs` is clamped at 0. -/
def getSnapshotInfoPure (now : Int) (mem : Option QueryIdCache) : Option SnapshotInfo :=
  match mem with
  | none => none
  | some c =>
    let age := now - c.fetchedAt
    some { snapshot := c
           ageMs := max 0 age
           isFresh := decide (age ≤ (if c.ttlMs = 0 then QUERY_ID_TTL_MS else c.ttlMs)) }

/-- `DEFAULT_QUERY_IDS[operation] ?? ''`. -/
def defaultQueryId (op : String) : String := (lookupStr DEFAULT_QUERY_IDS op).getD ""

/-- `getQueryId`: the cached value when present and truthy, else the hardcoded
default, else the empty string. -/
def getQueryId (now : Int) (mem : Option QueryIdCache) (op : String) : String :=
  match getSnapshotInfoPure now mem with
  | some info =>
    match lookupStr info.snapshot.ids op with
    | some v => if v = "" then defaultQueryId op else v
    | none => defaultQueryId op
  | none => defaultQueryId op

/-- `url.split('/').at(-1) ?? url`. -/
def lastSeg (u : String) : String := (u.splitOn "/").getLast?.getD u

/-- `discoverBundleUrls`, as a function of the bundle-URL regex matches found on each
discovery page (a page whose fetch fails contributes no matches).  When no bundle URL
is found at all it THROWS (`Except.error`). -/
def discoverBundleUrls (pageMatches : List (List String)) : Except String (List String) :=
  let urls := dedupList pageMatches.flatten
  if urls.isEmpty then
    Except.error "No client bundles discovered; x.com layout may have changed."
  else Except.ok urls

/-- The discovery part of `refreshQueryIds` (everything after the freshness check).
`scan` models `scanBundles`: given the bundle URLs it yields the
`(operationName, queryId)` pairs extracted.  Returns the new in-memory cache state
together with the returned `SnapshotInfo`, or the thrown message. -/
def runDiscovery (now : Int) (mem : Option QueryIdCache) (pageMatches : List (List String))
    (scan : List String → List (String × String)) :
    Except String (Option QueryIdCache × Option SnapshotInfo) :=
  match discoverBundleUrls pageMatches with
  | Except.error e => Except.error e
  | Except.ok bundleUrls =>
    let found := scan bundleUrls
    if found.isEmpty then
      -- Discovery failed — return existing cache if any (memory untouched)
      Except.ok (mem, getSnapshotInfoPure now mem)
    else
      let ids := DISCOVERY_OPERATIONS.filterMap
        (fun op => (lookupStr found op).map (fun q => (op, q)))
      let cache : QueryIdCache :=
        { fetchedAt := now, ttlMs := QUERY_ID_TTL_MS, ids := ids,
          pages := DISCOVERY_PAGES, bundles := bundleUrls.map lastSeg }
      Except.ok (some cache, getSnapshotInfoPure now (some cache))

/-- `refreshQueryIds`: skip discovery when not forced and the snapshot is fresh;
otherwise run discovery.  The result pairs the final in-memory cache state with the
returned `SnapshotInfo`. -/
def refreshQueryIds (force : Bool) (now : Int) (mem : Option QueryIdCache)
    (pageMatches : List (List String)) (scan : List String → List (String × String)) :
    Except String (Option QueryIdCache × Option SnapshotInfo) :=
  let skip : Option SnapshotInfo :=
    if force then none
    else
      match getSnapshotInfoPure now mem with
      | some info => if info.isFresh then some info else none
      | none => none
  match skip with
  | some info => Except.ok (mem, some info)
  | none => runDiscovery now mem pageMatches scan

-- ─────────────────────────────────────────────────────────────────
-- Raw payload model (`src/api/parser.ts`)
-- ─────────────────────────────────────────────────────────────────

/-- An object carrying an optional `text` field (`richtext`, `rich_text`, `content`,
`body` all have this shape where the parser reads them). -/
structure TextBox where
  text : Option String
deriving DecidableEq

/-- The two user-field generations (`legacy` and `core`) have the same read shape. -/
structure RawUserPart where
  screen_name : Option String
  name : Option String
deriving DecidableEq

/-- `result.core.user_results.result` (the authoring-actor node). -/
structure RawUserResult where
  legacy : Option RawUserPart
  core : Option RawUserPart
  rest_id : Option String
deriving DecidableEq

/-- `result.note_tweet.note_tweet_results.result` (the two optional hops collapsed:
`none` models any of them missing). -/
structure RawNote where
  text : Option String
  richtext : Option TextBox
  rich_text : Option TextBox
  content : Option TextBox
deriving DecidableEq

/-- The article text fields read on both `article` itself and
`article.article_results.result`. -/
structure ArticleFields where
  title : Option String
  plain_text : Option String
  body : Option TextBox
  content : Option TextBox
  preview_text : Option String
deriving DecidableEq

/-- `result.article`: `results` is `article.article_results?.result` (two optional
hops collapsed), `fields` are the fields of the `article` object itself. -/
structure RawArticle where
  results : Option ArticleFields
  fields : ArticleFields
deriving DecidableEq

/-- One entry of `sizes`. -/
structure RawDim where
  w : Option Int
  h : Option Int
deriving DecidableEq

structure RawSizes where
  large : Option RawDim
  medium : Option RawDim
  small : Option RawDim
deriving DecidableEq

/-- One entry of `video_info.variants`. -/
structure RawVariant where
  content_type : Option String
  url : Option String
  bitrate : Option Int
deriving DecidableEq

structure RawVideoInfo where
  variants : Option (List RawVariant)
  duration_millis : Option Int
deriving DecidableEq

/-- One entry of `legacy.extended_entities.media` / `legacy.entities.media`. -/
structure RawMedia where
  type : Option String
  media_url_https : Option String
  sizes : Option RawSizes
  video_info : Option RawVideoInfo
deriving DecidableEq

/-- `result.legacy` as read by the parser.  `extended_entities_media` stands for
`legacy.extended_entities?.media` and `entities_media` for `legacy.entities?.media`
(each pair of optional hops collapsed). -/
structure RawLegacy where
  full_text : Option String
  created_at : Option String
  reply_count : Option Int
  retweet_count : Option Int
  favorite_count : Option Int
  conversation_id_str : Option String
  in_reply_to_status_id_str : Option String
  extended_entities_media : Option (List RawMedia)
  entities_media : Option (List RawMedia)
deriving DecidableEq

/-- One raw tweet node.  `user` is `core.user_results.result`; `note` is
`note_tweet.note_tweet_results.result`; `quoted` is `quoted_status_result.result`,
modelled as `(tweet-field?, the object itself viewed as a node)` so that
`unwrapTweet` can pick the `.tweet` envelope when present. -/
inductive RawNode where
  | mk (rest_id : Option String)
       (user : Option RawUserResult)
       (note : Option RawNote)
       (article : Option RawArticle)
       (legacy : Option RawLegacy)
       (quoted : Option (Option RawNode × RawNode))

def RawNode.rest_id : RawNode → Option String
  | .mk r _ _ _ _ _ => r

def RawNode.user : RawNode → Option RawUserResult
  | .mk _ u _ _ _ _ => u

def RawNode.note : RawNode → Option RawNote
  | .mk _ _ n _ _ _ => n

def RawNode.article : RawNode → Option RawArticle
  | .mk _ _ _ a _ _ => a

def RawNode.legacy : RawNode → Option RawLegacy
  | .mk _ _ _ _ l _ => l

def RawNode.quoted : RawNode → Option (Option RawNode × RawNode)
  | .mk _ _ _ _ _ q => q

-- ─────────────────────────────────────────────────────────────────
-- Canonical records (`src/api/types.ts`)
-- ─────────────────────────────────────────────────────────────────

structure TweetMedia where
  type : String
  url : String
  width : Option Int
  height : Option Int
  previewUrl : Option String
  videoUrl : Option String
  durationMs : Option Int
deriving DecidableEq

structure ArticlePreview where
  title : String
  previewText : Option String
deriving DecidableEq

/-- The canonical `Tweet` record (recursive through `quotedTweet`; the `_raw`
escape hatch is omitted, it only copies the input through). -/
inductive Tweet where
  | mk (id : String) (text : String) (createdAt : Option String)
       (replyCount : Option Int) (retweetCount : Option Int) (likeCount : Option Int)
       (conversationId : Option String) (inReplyToStatusId : Option String)
       (authorUsername : String) (authorName : String) (authorId : Option String)
       (quotedTweet : Option Tweet)
       (media : Option (List TweetMedia))
       (article : Option ArticlePreview)

def Tweet.id : Tweet → String
  | .mk i _ _ _ _ _ _ _ _ _ _ _ _ _ => i

def Tweet.text : Tweet → String
  | .mk _ t _ _ _ _ _ _ _ _ _ _ _ _ => t

def Tweet.inReplyToStatusId : Tweet → Option String
  | .mk _ _ _ _ _ _ _ r _ _ _ _ _ _ => r

def Tweet.authorUsername : Tweet → String
  | .mk _ _ _ _ _ _ _ _ u _ _ _ _ _ => u

def Tweet.quotedTweet : Tweet → Option Tweet
  | .mk _ _ _ _ _ _ _ _ _ _ _ q _ _ => q

-- ─────────────────────────────────────────────────────────────────
-- Text extraction (`parser.ts` lines 10–52)
-- ─────────────────────────────────────────────────────────────────

/-- `firstNonEmpty(...values)`: first value that is a string whose trim is
non-empty, returned trimmed. -/
def firstNonEmpty : List (Option String) → Option String
  | [] => none
  | v :: rest =>
    match v with
    | some s => if jsTrim s = "" then firstNonEmpty rest else some (jsTrim s)
    | none => firstNonEmpty rest

/-- `extractNoteTweetText`. -/
def extractNoteTweetText (r : RawNode) : Option String :=
  match r.note with
  | none => none
  | some n =>
    firstNonEmpty [n.text, n.richtext.bind TextBox.text, n.rich_text.bind TextBox.text,
      n.content.bind TextBox.text]

/-- `extractArticleText` — the inner (`article_results.result`) fields shadow the
outer ones; the title is prefixed to the body unless the body already starts with it. -/
def extractArticleText (r : RawNode) : Option String :=
  match r.article with
  | none => none
  | some a =>
    let inner := a.results.getD a.fields
    let title := firstNonEmpty [inner.title, a.fields.title]
    let plainText := firstNonEmpty [inner.plain_text, a.fields.plain_text,
      inner.body.bind TextBox.text, inner.content.bind TextBox.text,
      a.fields.body.bind TextBox.text, a.fields.content.bind TextBox.text]
    match plainText, title with
    | some p, some t => if jsStartsWith p t then some p else some (t ++ "\n" ++ p)
    | some p, none => some p
    | none, t => t

/-- `extractTweetText`: article text `??` note text `??` legacy `full_text`. -/
def extractTweetText (r : RawNode) : Option String :=
  jsNullish (jsNullish (extractArticleText r) (extractNoteTweetText r))
    (firstNonEmpty [r.legacy.bind RawLegacy.full_text])

-- ─────────────────────────────────────────────────────────────────
-- Media extraction (`parser.ts` lines 56–92)
-- ─────────────────────────────────────────────────────────────────

/-- The `video/mp4` candidates: `variants.filter(v => v.content_type === 'video/mp4'
&& typeof v.url === 'string')`. -/
def mp4Variants (vs : List RawVariant) : List RawVariant :=
  vs.filter (fun v => v.content_type == some "video/mp4" && v.url.isSome)

/-- Stable insertion into a bitrate-descending list (comparator `b.bitrate - a.bitrate`):
the incoming element precedes every already-inserted element whose bitrate is not
larger — and the elements already in the list come later in source order — so equal
bitrates keep their source order, as the mandated-stable JS `Array.prototype.sort`
does. -/
def insertBitrateDesc (v : RawVariant) : List RawVariant → List RawVariant
  | [] => [v]
  | w :: rest =>
    if v.bitrate.getD 0 ≥ w.bitrate.getD 0 then v :: w :: rest
    else w :: insertBitrateDesc v rest

/-- Stable sort by declared bitrate, highest first. -/
def sortBitrateDesc : List RawVariant → List RawVariant
  | [] => []
  | v :: rest => insertBitrateDesc v (sortBitrateDesc rest)

/-- `mp4s.filter(v => typeof v.bitrate === 'number').sort((a,b) => b.bitrate - a.bitrate)[0]
?? mp4s[0]`. -/
def bestVariant (vs : List RawVariant) : Option RawVariant :=
  let mp4s := mp4Variants vs
  match sortBitrateDesc (mp4s.filter (fun v => v.bitrate.isSome)) with
  | b :: _ => some b
  | [] => mp4s.head?

/-- The body of the per-entity loop of `extractMedia` (`continue` becomes `none`). -/
def mediaItemOf (m : RawMedia) : Option TweetMedia :=
  if jsTruthyS m.type = false || jsTruthyS m.media_url_https = false then none
  else
    let ty := m.type.getD ""
    let u := m.media_url_https.getD ""
    let wh : Option Int × Option Int :=
      match m.sizes with
      | some sz =>
        match sz.large with
        | some d => (d.w, d.h)
        | none =>
          match sz.medium with
          | some d => (d.w, d.h)
          | none => (none, none)
      | none => (none, none)
    let previewUrl : Option String :=
      match m.sizes with
      | some sz => match sz.small with
        | some _ => some (u ++ ":small")
        | none => none
      | none => none
    let videoPart : Option String × Option Int :=
      if ty = "video" || ty = "animated_gif" then
        match m.video_info with
        | some vi =>
          match vi.variants with
          | some vs => ((bestVariant vs).bind RawVariant.url, vi.duration_millis)
          | none => (none, none)
        | none => (none, none)
      else (none, none)
    some ⟨ty, u, wh.1, wh.2, previewUrl, videoPart.1, videoPart.2⟩

/-- `extractMedia`. -/
def extractMedia (r : RawNode) : Option (List TweetMedia) :=
  let mediaEntities := jsNullish (r.legacy.bind RawLegacy.extended_entities_media)
    (r.legacy.bind RawLegacy.entities_media)
  match mediaEntities with
  | none => none
  | some ms =>
    if ms.length = 0 then none
    else
      let items := ms.filterMap mediaItemOf
      if items.length > 0 then some items else none

/-- `extractArticlePreview`. -/
def extractArticlePreview (r : RawNode) : Option ArticlePreview :=
  match r.article with
  | none => none
  | some a =>
    let inner := a.results.getD a.fields
    match firstNonEmpty [inner.title, a.fields.title] with
    | none => none
    | some t => some ⟨t, firstNonEmpty [inner.preview_text, a.fields.preview_text]⟩

-- ─────────────────────────────────────────────────────────────────
-- Tweet parsing (`parser.ts` lines 108–156)
-- ─────────────────────────────────────────────────────────────────

/-- `unwrapTweet`: pick the `.tweet` envelope when present, else the object itself. -/
def unwrapTweet : Option (Option RawNode × RawNode) → Option RawNode
  | none => none
  | some (some t, _) => some t
  | some (none, s) => some s

/-- `parseTweet(result, quoteDepth)` (the `includeRaw` flag only attaches `_raw` and
is omitted).  Recursion is on `quoteDepth` alone, exactly as in the source, where the
raw payload may be arbitrarily (even cyclically) nested. -/
def parseTweet (r : RawNode) (quoteDepth : Nat) : Option Tweet :=
  let userResult := r.user
  let ulegacy := userResult.bind RawUserResult.legacy
  let ucore := userResult.bind RawUserResult.core
  let username := jsNullish (ulegacy.bind RawUserPart.screen_name)
    (ucore.bind RawUserPart.screen_name)
  let name := jsNullish (jsNullish (ulegacy.bind RawUserPart.name)
    (ucore.bind RawUserPart.name)) username
  let userId := userResult.bind RawUserResult.rest_id
  if jsTruthyS r.rest_id = false || jsTruthyS username = false then none
  else
    let textO := extractTweetText r
    if jsTruthyS textO = false then none
    else
      let quotedTweet : Option Tweet :=
        match quoteDepth with
        | 0 => none
        | d + 1 =>
          match unwrapTweet r.quoted with
          | some q => parseTweet q d
          | none => none
      some (Tweet.mk (r.rest_id.getD "") (textO.getD "")
        (r.legacy.bind RawLegacy.created_at)
        (r.legacy.bind RawLegacy.reply_count)
        (r.legacy.bind RawLegacy.retweet_count)
        (r.legacy.bind RawLegacy.favorite_count)
        (r.legacy.bind RawLegacy.conversation_id_str)
        (r.legacy.bind RawLegacy.in_reply_to_status_id_str)
        (username.getD "")
        (jsStringOr (name.getD "") (username.getD ""))
        userId quotedTweet (extractMedia r) (extractArticlePreview r))

/-- Length of the chain of nested quoted tweets inside a canonical record. -/
def quoteChainLen : Tweet → Nat
  | .mk _ _ _ _ _ _ _ _ _ _ _ q _ _ =>
    match q with
    | some t => quoteChainLen t + 1
    | none => 0

-- ─────────────────────────────────────────────────────────────────
-- Timeline instruction parsing (`parser.ts` lines 160–214)
-- ─────────────────────────────────────────────────────────────────

/-- One element of `content.items`; the three probed paths
(`item.item.itemContent.tweet_results.result`, `item.itemContent.tweet_results.result`,
`item.content.itemContent.tweet_results.result`), optional hops collapsed. -/
structure RawItem where
  itemPath : Option RawNode
  directPath : Option RawNode
  contentPath : Option RawNode

/-- `entry.content`: the two direct tweet paths, the `items` module list, and the
cursor fields. -/
structure RawEntryContent where
  itemContentTweet : Option RawNode
  itemTweet : Option RawNode
  items : Option (List RawItem)
  cursorType : Option String
  value : Option String

structure RawEntry where
  content : Option RawEntryContent

structure RawInstruction where
  entries : Option (List RawEntry)

/-- `push(r)`: `if (r?.rest_id) results.push(r)`. -/
def pushTweetResult (acc : List RawNode) (r : Option RawNode) : List RawNode :=
  match r with
  | some n => if jsTruthyS n.rest_id then acc ++ [n] else acc
  | none => acc

/-- `extractTweetResultsFromEntry`. -/
def extractTweetResultsFromEntry (entry : RawEntry) : List RawNode :=
  let content := entry.content
  let acc := pushTweetResult [] (content.bind RawEntryContent.itemContentTweet)
  let acc := pushTweetResult acc (content.bind RawEntryContent.itemTweet)
  ((content.bind RawEntryContent.items).getD []).foldl
    (fun a it =>
      let a := pushTweetResult a it.itemPath
      let a := pushTweetResult a it.directPath
      pushTweetResult a it.contentPath) acc

/-- The dedup-by-id consumption of the flattened raw-node stream (`seen` set, first
occurrence wins).  Parsing each node is pure, so flattening the nested entry loops
into one stream is behaviour-preserving. -/
def dedupConsume (quoteDepth : Nat) : List RawNode → List String → List Tweet →
    List String × List Tweet
  | [], seen, acc => (seen, acc)
  | raw :: rest, seen, acc =>
    match parseTweet raw quoteDepth with
    | none => dedupConsume quoteDepth rest seen acc
    | some t =>
      if seen.contains t.id then dedupConsume quoteDepth rest seen acc
      else dedupConsume quoteDepth rest (t.id :: seen) (acc ++ [t])

/-- `parseTweetsFromInstructions`. -/
def parseTweetsFromInstructions (instructions : Option (List RawInstruction))
    (quoteDepth : Nat) : List Tweet :=
  let raws := (instructions.getD []).foldl
    (fun acc inst =>
      (inst.entries.getD []).foldl (fun a e => a ++ extractTweetResultsFromEntry e) acc) []
  (dedupConsume quoteDepth raws [] []).2

-- ─────────────────────────────────────────────────────────────────
-- `getReplies` (API client) and the paginated helpers
-- ─────────────────────────────────────────────────────────────────

/-- `TweetsResult` from `src/api/types.ts`. -/
structure TweetsResult where
  success : Bool
  error : Option String
  tweets : Option (List Tweet)
  nextCursor : Option String

/-- One HTTP response at the GraphQL boundary, as far as `getReplies` inspects it:
status, body text (used only for error messages) and the decoded
`data.threaded_conversation_with_injections_v2.instructions` tree. -/
structure HttpResp where
  status : Nat
  bodyText : String
  instructions : Option (List RawInstruction)

/-- `Response.ok` — status in the 2xx range. -/
def respOk (r : HttpResp) : Bool := decide (200 ≤ r.status) && decide (r.status ≤ 299)

/-- The `doRequest` closure of `XReaderClient.getReplies`, applied to the response
the network returned for one candidate query id. -/
def getRepliesAttempt (tweetId : String) (quoteDepth : Nat) (resp : HttpResp) :
    AttemptOutcome TweetsResult :=
  if resp.status = 404 then ⟨none, 404, none⟩
  else if respOk resp = false then
    ⟨none, resp.status, some ("HTTP " ++ toString resp.status ++ ": " ++ jsSlice resp.bodyText 200)⟩
  else
    let allTweets := parseTweetsFromInstructions resp.instructions quoteDepth
    let replies := allTweets.filter (fun t => t.inReplyToStatusId == some tweetId)
    ⟨some ⟨true, none, some replies, none⟩, 200, none⟩

/-- `XReaderClient.getReplies` routed through `tryWithQueryIds` (`extraIds = []`);
`refreshResult` is the outcome of the forced refresh should one be needed, and
`net1`/`net2` give the server's response per query id before/after it. -/
def getReplies (tweetId : String) (quoteDepth : Nat) (ids : List String)
    (refreshResult : Except String Unit) (freshIds : List String)
    (net1 net2 : String → HttpResp) : DispatchTrace TweetsResult :=
  tryWithQueryIds "TweetDetail" ids [] refreshResult freshIds
    (fun q => getRepliesAttempt tweetId quoteDepth (net1 q))
    (fun q => getRepliesAttempt tweetId quoteDepth (net2 q))

/-- Inner per-page accumulation loop shared by the three paginated helpers: walk the
page's tweets, skip ids already seen, stop once `count` is reached.  Returns the
updated `seen` set and the tweets newly appended (so `added` is its length and the
new `all` is `all ++ newOnes`); `curLen` is the current `all.length`. -/
def addPage (count : Nat) : List Tweet → List String → Nat → List String × List Tweet
  | [], seen, _ => (seen, [])
  | t :: rest, seen, curLen =>
    if seen.contains t.id then addPage count rest seen curLen
    else
      if count ≤ curLen + 1 then (t.id :: seen, [t])
      else
        let res := addPage count rest (t.id :: seen) (curLen + 1)
        (res.1, t :: res.2)

/-- The shared pagination loop of `searchAll` / `getUserTweetsAll` / `getBookmarksAll`.
`fetch pages all.length cursor` models the underlying per-page operation (network,
therefore an oracle that may also depend on how many pages were consumed so far);
`maxPages = 0` models an unset `options.maxPages` (JS falsiness).  Returns the result
together with the final value of the `pages` counter. -/
def runPaged (fetch : Nat → Nat → Option String → TweetsResult) (count maxPages : Nat)
    (seen : List String) (all : List Tweet) (cursor : Option String) (pages : Nat) :
    TweetsResult × Nat :=
  if hlt : all.length < count then
    let result := fetch pages all.length cursor
    if result.success then
      let pages' := pages + 1
      let res := addPage count (result.tweets.getD []) seen all.length
      let all' := all ++ res.2
      if jsTruthyS result.nextCursor = false then (⟨true, none, some all', none⟩, pages')
      else if result.nextCursor = cursor then (⟨true, none, some all', none⟩, pages')
      else if hz : res.2.length = 0 then (⟨true, none, some all', none⟩, pages')
      else if maxPages ≠ 0 ∧ maxPages ≤ pages' then
        (⟨true, none, some all', result.nextCursor⟩, pages')
      else runPaged fetch count maxPages res.1 all' result.nextCursor pages'
    else (⟨false, result.error, none, none⟩, pages)
  else (⟨true, none, some all, none⟩, pages)
termination_by count - all.length
decreasing_by
  have h2 : (addPage count ((fetch pages all.length cursor).tweets.getD [])
      seen all.length).2.length ≠ 0 := hz
  simp only [List.length_append]
  omega

/-- `XReaderClient.searchAll` (the page size handed to `search` is
`Math.min(20, count - all.length)`). -/
def searchAll (fetchPage : Nat → Nat → Option String → TweetsResult) (count maxPages : Nat) :
    TweetsResult × Nat :=
  runPaged (fun pages len cursor => fetchPage pages (min 20 (count - len)) cursor)
    count maxPages [] [] none 0

/-- `XReaderClient.getUserTweetsAll` (same loop; the inter-page delay has no
observable effect in the model). -/
def getUserTweetsAll (fetchPage : Nat → Nat → Option String → TweetsResult)
    (count maxPages : Nat) : TweetsResult × Nat :=
  runPaged (fun pages len cursor => fetchPage pages (min 20 (count - len)) cursor)
    count maxPages [] [] none 0

/-- `XReaderClient.getBookmarksAll` (each page asks for 20; `count` is the requested
total — the TS default `Infinity` is outside this finite-count model). -/
def getBookmarksAll (fetchPage : Nat → Nat → Option String → TweetsResult)
    (count maxPages : Nat) : TweetsResult × Nat :=
  runPaged (fun pages _ cursor => fetchPage pages 20 cursor) count maxPages [] [] none 0

-- ─────────────────────────────────────────────────────────────────
-- Lemmas about the dispatch loops
-- ─────────────────────────────────────────────────────────────────

theorem phase1Loop_all404 {T : Type} (a : String → AttemptOutcome T) (l : List String)
    (h : ∀ q ∈ l, (a q).result = none ∧ (a q).status = 404) (le : String) (h4 : Bool) :
    (phase1Loop a l le h4).1 = none ∧
    (phase1Loop a l le h4).2.2.1 = (h4 || !l.isEmpty) ∧
    (phase1Loop a l le h4).2.2.2 = l := by
  induction l generalizing le h4 with
  | nil => simp [phase1Loop]
  | cons q rest ih =>
    have hq := h q (List.mem_cons_self q rest)
    have hrest : ∀ x ∈ rest, (a x).result = none ∧ (a x).status = 404 :=
      fun x hx => h x (List.mem_cons_of_mem q hx)
    have hdec : (h4 || decide ((a q).status = 404)) = true := by simp [hq.2]
    have hrec := ih hrest (updErr (a q).error le) true
    simp only [phase1Loop, hq.1, hdec]
    exact ⟨hrec.1, by simp [hrec.2.1], by simp [hrec.2.2]⟩

theorem phase1Loop_no404 {T : Type} (a : String → AttemptOutcome T) (l : List String)
    (h : ∀ q ∈ l, (a q).status ≠ 404) (le : String) :
    (phase1Loop a l le false).2.2.1 = false := by
  induction l generalizing le with
  | nil => simp [phase1Loop]
  | cons q rest ih =>
    have hq := h q (List.mem_cons_self q rest)
    have hrest : ∀ x ∈ rest, (a x).status ≠ 404 :=
      fun x hx => h x (List.mem_cons_of_mem q hx)
    simp only [phase1Loop]
    match hres : (a q).result with
    | some v => simp
    | none =>
      simp only [hq, decide_eq_true_eq, Bool.false_or]
      simpa [hq] using ih hrest (updErr (a q).error le)

theorem phase2Loop_attempted_take {T : Type} (a : String → AttemptOutcome T)
    (l : List String) (le : String) :
    ∃ k, (phase2Loop a l le).2.2 = l.take k := by
  induction l generalizing le with
  | nil => exact ⟨0, by simp [phase2Loop]⟩
  | cons q rest ih =>
    simp only [phase2Loop]
    match hres : (a q).result with
    | some v => exact ⟨1, by simp⟩
    | none =>
      obtain ⟨k, hk⟩ := ih (updErr (a q).error le)
      exact ⟨k + 1, by simp [hk]⟩

theorem phase1Loop_success_mem {T : Type} (a : String → AttemptOutcome T)
    (l : List String) (le : String) (h4 : Bool) (v : T)
    (h : (phase1Loop a l le h4).1 = some v) : ∃ q ∈ l, (a q).result = some v := by
  induction l generalizing le h4 with
  | nil => simp [phase1Loop] at h
  | cons q rest ih =>
    simp only [phase1Loop] at h
    match hres : (a q).result with
    | some w =>
      rw [hres] at h
      simp at h
      exact ⟨q, List.mem_cons_self q rest, by rw [hres, h]⟩
    | none =>
      rw [hres] at h
      simp at h
      obtain ⟨x, hx, hxv⟩ := ih _ _ h
      exact ⟨x, List.mem_cons_of_mem q hx, hxv⟩

theorem phase2Loop_success_mem {T : Type} (a : String → AttemptOutcome T)
    (l : List String) (le : String) (v : T)
    (h : (phase2Loop a l le).1 = some v) : ∃ q ∈ l, (a q).result = some v := by
  induction l generalizing le with
  | nil => simp [phase2Loop] at h
  | cons q rest ih =>
    simp only [phase2Loop] at h
    match hres : (a q).result with
    | some w =>
      rw [hres] at h
      simp at h
      exact ⟨q, List.mem_cons_self q rest, by rw [hres, h]⟩
    | none =>
      rw [hres] at h
      simp at h
      obtain ⟨x, hx, hxv⟩ := ih _ h
      exact ⟨x, List.mem_cons_of_mem q hx, hxv⟩

-- ─────────────────────────────────────────────────────────────────
-- C1, C2 — the resilient dispatch protocol
-- ─────────────────────────────────────────────────────────────────

/-- Counterexample to C1 as stated: with every candidate yielding 404 and the forced
refresh throwing (no bundle URLs discovered — a reachable path, see
`c4_counterexample`), the rebuilt candidate list `["c"]` is never attempted even
though attempting it would succeed: the retry loop is skipped and the discovery error
propagates as the call's failure. -/
theorem c1_counterexample :
    tryWithQueryIds "SearchTimeline" ["a", "b"] []
      (Except.error "No client bundles discovered; x.com layout may have changed.")
      ["c"]
      (fun _ => AttemptOutcome.mk (T := Nat) none 404 none)
      (fun _ => AttemptOutcome.mk (T := Nat) (some 7) 200 none) =
    ⟨Except.error "No client bundles discovered; x.com layout may have changed.",
      1, ["a", "b"]⟩ := rfl

/-- C1 (amended).  If every candidate identifier attempted in the first phase of
`tryWithQueryIds` yields the invalid-identifier signal (HTTP 404) and none succeeds,
exactly one forced cache refresh is triggered and no further refresh occurs in that
call; when the refresh returns normally the attempt loop is repeated exactly once
with the rebuilt candidate list (the retry attempts are an initial segment of it),
while a refresh that throws skips the retry loop and its error becomes the call's
failure.  If no candidate yielded 404, no refresh is triggered at all. -/
theorem c1_exactly_one_refresh {T : Type} (operation : String)
    (ids extraIds : List String) (refreshResult : Except String Unit)
    (freshIds : List String) (a1 a2 : String → AttemptOutcome T) :
    (dedupList (ids ++ extraIds) ≠ [] →
      (∀ q ∈ dedupList (ids ++ extraIds), (a1 q).result = none ∧ (a1 q).status = 404) →
      (tryWithQueryIds operation ids extraIds refreshResult freshIds a1
        a2).refreshes = 1 ∧
      (refreshResult = Except.ok () →
        ∃ k, (tryWithQueryIds operation ids extraIds refreshResult freshIds a1
          a2).attempted = dedupList (ids ++ extraIds) ++ freshIds.take k) ∧
      (∀ e, refreshResult = Except.error e →
        (tryWithQueryIds operation ids extraIds refreshResult freshIds a1
          a2).outcome = Except.error e ∧
        (tryWithQueryIds operation ids extraIds refreshResult freshIds a1
          a2).attempted = dedupList (ids ++ extraIds))) ∧
    ((∀ q ∈ dedupList (ids ++ extraIds), (a1 q).status ≠ 404) →
      (tryWithQueryIds operation ids extraIds refreshResult freshIds a1
        a2).refreshes = 0) := by
  constructor
  · intro hne hall
    have h1 := phase1Loop_all404 a1 (dedupList (ids ++ extraIds)) hall "" false
    have hie : (dedupList (ids ++ extraIds)).isEmpty = false := by
      cases hll : dedupList (ids ++ extraIds) with
      | nil => exact absurd hll hne
      | cons x xs => simp
    rw [hie] at h1
    simp only [tryWithQueryIds, h1.1, h1.2.1, Bool.false_or, Bool.not_false, if_true]
    match refreshResult with
    | Except.error e =>
      refine ⟨rfl, by simp, ?_⟩
      intro e' he
      injection he with he
      subst he
      exact ⟨rfl, h1.2.2⟩
    | Except.ok u =>
      obtain ⟨k, hk⟩ := phase2Loop_attempted_take a2 freshIds
        (phase1Loop a1 (dedupList (ids ++ extraIds)) "" false).2.1
      match hp2 : (phase2Loop a2 freshIds
          (phase1Loop a1 (dedupList (ids ++ extraIds)) "" false).2.1).1 with
      | some v =>
        rw [hp2] at *
        exact ⟨rfl, fun _ => ⟨k, by rw [← hk, h1.2.2]⟩, by simp⟩
      | none =>
        rw [hp2] at *
        exact ⟨rfl, fun _ => ⟨k, by rw [← hk, h1.2.2]⟩, by simp⟩
  · intro hno
    simp only [tryWithQueryIds]
    match hp1 : (phase1Loop a1 (dedupList (ids ++ extraIds)) "" false).1 with
    | some v => rfl
    | none =>
      have h4 := phase1Loop_no404 a1 (dedupList (ids ++ extraIds)) hno ""
      rw [h4]
      rfl

/-- Witness for the amended C1: all-404 with a normally returning refresh gives
exactly one refresh; all-404 with a throwing refresh propagates the thrown error
after exactly one refresh call; a candidate list yielding only non-404 failures
triggers no refresh. -/
theorem c1_exactly_one_refresh_witness :
    (tryWithQueryIds "SearchTimeline" ["a", "b"] [] (Except.ok ()) ["c"]
      (fun _ => AttemptOutcome.mk (T := Nat) none 404 none)
      (fun _ => AttemptOutcome.mk (T := Nat) (some 7) 200 none)).refreshes = 1 ∧
    (tryWithQueryIds "SearchTimeline" ["a", "b"] [] (Except.error "boom") ["c"]
      (fun _ => AttemptOutcome.mk (T := Nat) none 404 none)
      (fun _ => AttemptOutcome.mk (T := Nat) (some 7) 200 none)).outcome =
      Except.error "boom" ∧
    (tryWithQueryIds "SearchTimeline" ["a", "b"] [] (Except.ok ()) ["c"]
      (fun _ => AttemptOutcome.mk (T := Nat) none 500 (some "HTTP 500: oops"))
      (fun _ => AttemptOutcome.mk (T := Nat) (some 7) 200 none)).refreshes = 0 :=
  ⟨((c1_exactly_one_refresh "SearchTimeline" ["a", "b"] [] (Except.ok ()) ["c"]
      (fun _ => AttemptOutcome.mk none 404 none)
      (fun _ => AttemptOutcome.mk (some 7) 200 none)).1
      (by decide) (by intro q _; exact ⟨rfl, rfl⟩)).1,
   (((c1_exactly_one_refresh "SearchTimeline" ["a", "b"] [] (Except.error "boom")
      ["c"] (fun _ => AttemptOutcome.mk none 404 none)
      (fun _ => AttemptOutcome.mk (some 7) 200 none)).1
      (by decide) (by intro q _; exact ⟨rfl, rfl⟩)).2.2 "boom" rfl).1,
   (c1_exactly_one_refresh "SearchTimeline" ["a", "b"] [] (Except.ok ()) ["c"]
      (fun _ => AttemptOutcome.mk none 500 (some "HTTP 500: oops"))
      (fun _ => AttemptOutcome.mk (some 7) 200 none)).2
      (by intro q _; simp)⟩

/-- C2.  If the first candidate identifier's attempt returns a successful result,
`tryWithQueryIds` returns that result immediately: only that one candidate is
attempted and no cache refresh is triggered. -/
theorem c2_short_circuit {T : Type} (operation : String)
    (ids extraIds : List String) (refreshResult : Except String Unit)
    (freshIds : List String) (a1 a2 : String → AttemptOutcome T)
    (q : String) (rest : List String) (v : T)
    (hdedup : dedupList (ids ++ extraIds) = q :: rest)
    (hs : (a1 q).result = some v) :
    tryWithQueryIds operation ids extraIds refreshResult freshIds a1 a2 =
      ⟨Except.ok v, 0, [q]⟩ := by
  simp only [tryWithQueryIds, hdedup, phase1Loop, hs]

/-- Witness for C2 at a concrete environment: one candidate succeeding at once. -/
theorem c2_short_circuit_witness :
    tryWithQueryIds "UserTweets" ["a"] [] (Except.error "never consulted") ["z"]
      (fun _ => AttemptOutcome.mk (T := Nat) (some 5) 200 none)
      (fun _ => AttemptOutcome.mk (T := Nat) none 404 none) =
    ⟨Except.ok 5, 0, ["a"]⟩ :=
  c2_short_circuit "UserTweets" ["a"] [] (Except.error "never consulted") ["z"]
    (fun _ => AttemptOutcome.mk (some 5) 200 none)
    (fun _ => AttemptOutcome.mk none 404 none) "a" [] 5 (by decide) rfl

-- ─────────────────────────────────────────────────────────────────
-- C3 — `getQueryId` and the hardcoded defaults
-- ─────────────────────────────────────────────────────────────────

/-- Counterexample to C3 as stated: with no snapshot at all, `getQueryId` does NOT
return empty for `TweetDetail` — it substitutes the hardcoded default itself. -/
theorem c3_counterexample :
    getQueryId 0 none "TweetDetail" = "97JF30KziU00483E_8elBA" ∧
    getQueryId 0 none "TweetDetail" ≠ "" := by
  constructor
  · rfl
  · decide

/-- C3 (amended).  For an operation not present (or not truthy) in the current
snapshot — or with no snapshot — `getQueryId` itself falls back to the hardcoded
default, returning empty only when no default exists for the operation: the fallback
lives inside the cache component, not in the caller. -/
theorem c3_default_fallback :
    (∀ (now : Int) (mem : Option QueryIdCache) (op : String),
      (∀ c, mem = some c → jsTruthyS (lookupStr c.ids op) = false) →
      getQueryId now mem op = defaultQueryId op) ∧
    (∀ op : String, lookupStr DEFAULT_QUERY_IDS op = none → defaultQueryId op = "") := by
  constructor
  · intro now mem op h
    match mem with
    | none => rfl
    | some c =>
      have hc := h c rfl
      simp only [getQueryId, getSnapshotInfoPure]
      match hl : lookupStr c.ids op with
      | none => rfl
      | some v =>
        rw [hl] at hc
        have hv : v = "" := by simpa [jsTruthyS] using hc
        simp [hv]
  · intro op h
    simp [defaultQueryId, h]

/-- Witness for the amended C3: a snapshot lacking `Bookmarks` still yields the
hardcoded Bookmarks default, and an unknown operation yields the empty string. -/
theorem c3_default_fallback_witness :
    getQueryId 5 (some ⟨0, 86400000, [("UserTweets", "XYZ")], [], []⟩) "Bookmarks" =
      defaultQueryId "Bookmarks" ∧
    defaultQueryId "NoSuchOperation" = "" :=
  ⟨c3_default_fallback.1 5 (some ⟨0, 86400000, [("UserTweets", "XYZ")], [], []⟩)
      "Bookmarks" (by intro c hc; cases hc; decide),
   c3_default_fallback.2 "NoSuchOperation" (by decide)⟩

-- ─────────────────────────────────────────────────────────────────
-- C4 — refresh failure modes
-- ─────────────────────────────────────────────────────────────────

/-- Counterexample to C4 as stated: a refresh cycle in which no bundle URL is found
is NOT reported softly — `discoverBundleUrls` throws and the error propagates out of
`refreshQueryIds` (so an in-flight `tryWithQueryIds` call would skip its retry
phase). -/
theorem c4_counterexample :
    refreshQueryIds true 0 (some ⟨0, 86400000, [("TweetDetail", "X")], [], []⟩)
      [[], []] (fun _ => []) =
    Except.error "No client bundles discovered; x.com layout may have changed." := rfl

/-- C4 (amended).  A refresh in which bundles are found but no identifiers are
extracted leaves the stored snapshot untouched and is reported softly (the existing
snapshot is returned); but a refresh that finds no bundle URLs at all raises. -/
theorem c4_soft_and_raised :
    (∀ (now : Int) (mem : Option QueryIdCache) (pm : List (List String))
      (scan : List String → List (String × String)),
      dedupList pm.flatten ≠ [] → scan (dedupList pm.flatten) = [] →
      refreshQueryIds true now mem pm scan = Except.ok (mem, getSnapshotInfoPure now mem)) ∧
    (∀ (now : Int) (mem : Option QueryIdCache) (pm : List (List String))
      (scan : List String → List (String × String)),
      dedupList pm.flatten = [] →
      refreshQueryIds true now mem pm scan =
        Except.error "No client bundles discovered; x.com layout may have changed.") := by
  constructor
  · intro now mem pm scan hne hscan
    have hie : (dedupList pm.flatten).isEmpty = false := by
      cases hll : dedupList pm.flatten with
      | nil => exact absurd hll hne
      | cons x xs => simp
    simp only [refreshQueryIds, runDiscovery, discoverBundleUrls, hie, Bool.false_eq_true,
      if_false, hscan, List.isEmpty_nil, if_true]
  · intro now mem pm scan hnil
    simp only [refreshQueryIds, runDiscovery, discoverBundleUrls, hnil, List.isEmpty_nil,
      if_true]

/-- Witness for the amended C4 at concrete inputs: one bundle URL but zero extracted
identifiers is soft; zero bundle URLs raises. -/
theorem c4_soft_and_raised_witness :
    refreshQueryIds true 7 (some ⟨0, 86400000, [("Likes", "L")], [], []⟩)
      [["https://abs.twimg.com/responsive-web/client-web/main.js"]] (fun _ => []) =
      Except.ok (some ⟨0, 86400000, [("Likes", "L")], [], []⟩,
        getSnapshotInfoPure 7 (some ⟨0, 86400000, [("Likes", "L")], [], []⟩)) ∧
    refreshQueryIds true 7 none [[]] (fun _ => []) =
      Except.error "No client bundles discovered; x.com layout may have changed." :=
  ⟨c4_soft_and_raised.1 7 (some ⟨0, 86400000, [("Likes", "L")], [], []⟩)
      [["https://abs.twimg.com/responsive-web/client-web/main.js"]] (fun _ => [])
      (by decide) rfl,
   c4_soft_and_raised.2 7 none [[]] (fun _ => []) (by decide)⟩

-- ─────────────────────────────────────────────────────────────────
-- C5 — snapshot freshness and the refresh no-op
-- ─────────────────────────────────────────────────────────────────

/-- C5.  A snapshot is fresh exactly while `now - fetchedAt <= ttl` (for the stored
ttl, which the loader guarantees non-zero); `refresh(force=false)` returns the current
snapshot without running discovery whenever it is fresh; `refresh(force=true)` always
proceeds to discovery regardless of freshness. -/
theorem c5_freshness :
    (∀ (now : Int) (c : QueryIdCache), c.ttlMs ≠ 0 →
      ∀ info, getSnapshotInfoPure now (some c) = some info →
      info.isFresh = decide (now - c.fetchedAt ≤ c.ttlMs)) ∧
    (∀ (now : Int) (mem : Option QueryIdCache) (info : SnapshotInfo)
      (pm : List (List String)) (scan : List String → List (String × String)),
      getSnapshotInfoPure now mem = some info → info.isFresh = true →
      refreshQueryIds false now mem pm scan = Except.ok (mem, some info)) ∧
    (∀ (now : Int) (mem : Option QueryIdCache) (pm : List (List String))
      (scan : List String → List (String × String)),
      refreshQueryIds true now mem pm scan = runDiscovery now mem pm scan) := by
  refine ⟨?_, ?_, ?_⟩
  · intro now c httl info hinfo
    simp only [getSnapshotInfoPure, Option.some.injEq] at hinfo
    rw [← hinfo]
    simp [httl]
  · intro now mem info pm scan hinfo hfresh
    simp only [refreshQueryIds, hinfo, hfresh, Bool.false_eq_true, if_false, if_true]
  · intro now mem pm scan
    rfl

/-- Witness for C5: with a 24-hour ttl, a snapshot aged 23 hours is fresh and one
aged 25 hours is not; a fresh snapshot makes an unforced refresh a no-op, and a
forced refresh proceeds to discovery even though the snapshot is fresh. -/
theorem c5_freshness_witness :
    (SnapshotInfo.mk ⟨0, 86400000, [], [], []⟩ 82800000 true).isFresh = true ∧
    (SnapshotInfo.mk ⟨0, 86400000, [], [], []⟩ 90000000 false).isFresh = false ∧
    refreshQueryIds false 82800000 (some ⟨0, 86400000, [], [], []⟩) [[]] (fun _ => []) =
      Except.ok (some ⟨0, 86400000, [], [], []⟩,
        some (SnapshotInfo.mk ⟨0, 86400000, [], [], []⟩ 82800000 true)) ∧
    refreshQueryIds true 82800000 (some ⟨0, 86400000, [], [], []⟩) [[]] (fun _ => []) =
      runDiscovery 82800000 (some ⟨0, 86400000, [], [], []⟩) [[]] (fun _ => []) :=
  ⟨(c5_freshness.1 82800000 ⟨0, 86400000, [], [], []⟩ (by decide)
      (SnapshotInfo.mk ⟨0, 86400000, [], [], []⟩ 82800000 true) rfl).trans (by decide),
   (c5_freshness.1 90000000 ⟨0, 86400000, [], [], []⟩ (by decide)
      (SnapshotInfo.mk ⟨0, 86400000, [], [], []⟩ 90000000 false) rfl).trans (by decide),
   c5_freshness.2.1 82800000 (some ⟨0, 86400000, [], [], []⟩)
      (SnapshotInfo.mk ⟨0, 86400000, [], [], []⟩ 82800000 true) [[]] (fun _ => []) rfl rfl,
   c5_freshness.2.2 82800000 (some ⟨0, 86400000, [], [], []⟩) [[]] (fun _ => [])⟩

-- ─────────────────────────────────────────────────────────────────
-- C6 — text resolution precedence
-- ─────────────────────────────────────────────────────────────────

/-- C6.  Text precedence, first non-empty wins: article-derived text (title prefixed
to the body unless the body already starts with it) → long-form note text (the four
field-name variants checked in order `text`, `richtext.text`, `rich_text.text`,
`content.text`) → legacy `full_text`; a node where all three sources are absent or
empty yields no item. -/
theorem c6_text_precedence :
    (∀ (r : RawNode) (s : String), extractArticleText r = some s →
      extractTweetText r = some s) ∧
    (∀ (r : RawNode) (s : String), extractArticleText r = none →
      extractNoteTweetText r = some s → extractTweetText r = some s) ∧
    (∀ r : RawNode, extractArticleText r = none → extractNoteTweetText r = none →
      extractTweetText r = firstNonEmpty [r.legacy.bind RawLegacy.full_text]) ∧
    (∀ (r : RawNode) (n : RawNote), r.note = some n →
      extractNoteTweetText r = firstNonEmpty [n.text, n.richtext.bind TextBox.text,
        n.rich_text.bind TextBox.text, n.content.bind TextBox.text]) ∧
    (∀ (r : RawNode) (a : RawArticle) (p t : String), r.article = some a →
      firstNonEmpty [(a.results.getD a.fields).plain_text, a.fields.plain_text,
        (a.results.getD a.fields).body.bind TextBox.text,
        (a.results.getD a.fields).content.bind TextBox.text,
        a.fields.body.bind TextBox.text, a.fields.content.bind TextBox.text] = some p →
      firstNonEmpty [(a.results.getD a.fields).title, a.fields.title] = some t →
      extractTweetText r =
        if jsStartsWith p t then some p else some (t ++ "\n" ++ p)) ∧
    (∀ (r : RawNode) (d : Nat), r.article = none → r.note = none →
      firstNonEmpty [r.legacy.bind RawLegacy.full_text] = none →
      parseTweet r d = none) := by
  refine ⟨?_, ?_, ?_, ?_, ?_, ?_⟩
  · intro r s h
    simp [extractTweetText, h, jsNullish]
  · intro r s ha hn
    simp [extractTweetText, ha, hn, jsNullish]
  · intro r ha hn
    simp [extractTweetText, ha, hn, jsNullish]
  · intro r n h
    simp [extractNoteTweetText, h]
  · intro r a p t ha hp ht
    have harticle : extractArticleText r =
        if jsStartsWith p t then some p else some (t ++ "\n" ++ p) := by
      simp only [extractArticleText, ha, hp, ht]
    by_cases hc : jsStartsWith p t
    · simp only [hc, if_true] at harticle ⊢
      simp [extractTweetText, harticle, jsNullish]
    · simp only [hc, if_false] at harticle ⊢
      simp [extractTweetText, harticle, jsNullish]
  · intro r d ha hn hf
    have htext : extractTweetText r = none := by
      simp [extractTweetText, extractArticleText, extractNoteTweetText, ha, hn, hf,
        jsNullish]
    cases d with
    | zero => unfold parseTweet; simp [htext, jsTruthyS]
    | succ d => unfold parseTweet; simp [htext, jsTruthyS]

/-- Witness for C6 at concrete nodes: article text wins over legacy text, legacy text
is used when it is the only source, the four note-text variants are probed in order,
and a node with no text source yields no item. -/
theorem c6_text_precedence_witness :
    extractTweetText (RawNode.mk (some "1") none none
        (some ⟨some ⟨some "T", some "body", none, none, none⟩,
          ⟨none, none, none, none, none⟩⟩) (some ⟨some "legacy text", none, none, none,
          none, none, none, none, none⟩) none) = some "T\nbody" ∧
    extractTweetText (RawNode.mk (some "2") none none none
        (some ⟨some "hello", none, none, none, none, none, none, none, none⟩) none) =
      firstNonEmpty [some "hello"] ∧
    firstNonEmpty [some "hello"] = some "hello" ∧
    extractNoteTweetText (RawNode.mk (some "3") none
        (some ⟨none, some ⟨some "rich"⟩, none, none⟩) none none none) =
      firstNonEmpty [none, some "rich", none, none] ∧
    firstNonEmpty [none, some "rich", none, none] = some "rich" ∧
    parseTweet (RawNode.mk (some "4") none none none none none) 3 = none :=
  ⟨c6_text_precedence.1 _ "T\nbody" (by decide),
   c6_text_precedence.2.2.1 _ (by decide) (by decide),
   by decide,
   c6_text_precedence.2.2.2.1 _ ⟨none, some ⟨some "rich"⟩, none, none⟩ rfl,
   by decide,
   c6_text_precedence.2.2.2.2.2 _ 3 rfl rfl (by decide)⟩

-- ─────────────────────────────────────────────────────────────────
-- C7 — bounded quote recursion
-- ─────────────────────────────────────────────────────────────────

/-- A successfully parsed item at depth 0 carries no nested quoted item. -/
theorem parseTweet_quoted_zero (r : RawNode) (t : Tweet)
    (h : parseTweet r 0 = some t) : t.quotedTweet = none := by
  unfold parseTweet at h
  simp only [] at h
  repeat' split at h
  all_goals try exact Option.noConfusion h
  all_goals (injection h with h; subst h; rfl)

/-- A successfully parsed item at depth `d+1` carries the recursive parse of the
unwrapped quoted node at depth `d`. -/
theorem parseTweet_quoted_succ (r : RawNode) (d : Nat) (t : Tweet)
    (h : parseTweet r (d + 1) = some t) :
    t.quotedTweet = match unwrapTweet r.quoted with
      | some q => parseTweet q d
      | none => none := by
  unfold parseTweet at h
  simp only [] at h
  repeat' split at h
  all_goals try exact Option.noConfusion h
  all_goals (injection h with h; subst h; simp_all [Tweet.quotedTweet])

/-- `quoteChainLen` seen through the `quotedTweet` projection. -/
theorem quoteChainLen_eq (t : Tweet) :
    quoteChainLen t = match t.quotedTweet with
      | some q => quoteChainLen q + 1
      | none => 0 := by
  cases t with
  | mk i tx ca rc rt lc ci ir au an aid q m ar =>
    cases q <;> simp [quoteChainLen, Tweet.quotedTweet]

/-- C7.  With `quoteDepth = 0`, `parseTweet` never produces a nested quoted item even
when the raw payload contains a quoted-status envelope; and in general the produced
quote chain is bounded by the depth (each recursive call runs at `quoteDepth - 1`, so
parsing terminates on arbitrarily nested quote chains). -/
theorem c7_quote_depth_bound :
    (∀ (r : RawNode) (t : Tweet), parseTweet r 0 = some t → t.quotedTweet = none) ∧
    (∀ (d : Nat) (r : RawNode) (t : Tweet), parseTweet r d = some t →
      quoteChainLen t ≤ d) := by
  have main : ∀ (d : Nat) (r : RawNode) (t : Tweet), parseTweet r d = some t →
      quoteChainLen t ≤ d := by
    intro d
    induction d with
    | zero =>
      intro r t h
      rw [quoteChainLen_eq, parseTweet_quoted_zero r t h]
    | succ d ih =>
      intro r t h
      rw [quoteChainLen_eq, parseTweet_quoted_succ r d t h]
      match hu : unwrapTweet r.quoted with
      | none => simp
      | some q =>
        match hp : parseTweet q d with
        | none => simp [hp]
        | some tq =>
          have := ih q tq hp
          simp only [hp]
          omega
  exact ⟨fun r t h => parseTweet_quoted_zero r t h, main⟩

/-- Witness for C7: a node with a quoted-status envelope parsed at depth 0 yields an
item with no nested quote; at depth 5 the chain length of the same node is ≤ 5. -/
theorem c7_quote_depth_bound_witness :
    (Tweet.mk "out" "o" none none none none none none "a" "a" none none none
      none).quotedTweet = none ∧
    quoteChainLen (Tweet.mk "out" "o" none none none none none none "a" "a" none
      (some (Tweet.mk "in" "i" none none none none none none "b" "b" none none none
        none)) none none) ≤ 5 :=
  ⟨c7_quote_depth_bound.1
      (RawNode.mk (some "out")
        (some ⟨some ⟨some "a", some "a"⟩, none, none⟩) none none
        (some ⟨some "o", none, none, none, none, none, none, none, none⟩)
        (some (none, RawNode.mk (some "in")
          (some ⟨some ⟨some "b", some "b"⟩, none, none⟩) none none
          (some ⟨some "i", none, none, none, none, none, none, none, none⟩) none)))
      (Tweet.mk "out" "o" none none none none none none "a" "a" none none none none)
      rfl,
   c7_quote_depth_bound.2 5
      (RawNode.mk (some "out")
        (some ⟨some ⟨some "a", some "a"⟩, none, none⟩) none none
        (some ⟨some "o", none, none, none, none, none, none, none, none⟩)
        (some (none, RawNode.mk (some "in")
          (some ⟨some ⟨some "b", some "b"⟩, none, none⟩) none none
          (some ⟨some "i", none, none, none, none, none, none, none, none⟩) none)))
      (Tweet.mk "out" "o" none none none none none none "a" "a" none
        (some (Tweet.mk "in" "i" none none none none none none "b" "b" none none none
          none)) none none)
      rfl⟩

-- ─────────────────────────────────────────────────────────────────
-- C8 — best playable video variant
-- ─────────────────────────────────────────────────────────────────

theorem mem_insertBitrateDesc (v x : RawVariant) (l : List RawVariant) :
    x ∈ insertBitrateDesc v l ↔ x = v ∨ x ∈ l := by
  induction l with
  | nil => simp [insertBitrateDesc]
  | cons w rest ih =>
    simp only [insertBitrateDesc]
    split
    · simp [List.mem_cons]
    · simp only [List.mem_cons, ih]
      tauto

theorem insertBitrateDesc_ne_nil (v : RawVariant) (l : List RawVariant) :
    insertBitrateDesc v l ≠ [] := by
  cases l with
  | nil => simp [insertBitrateDesc]
  | cons w rest =>
    simp only [insertBitrateDesc]
    split <;> simp

theorem sortBitrateDesc_eq_nil (l : List RawVariant) :
    sortBitrateDesc l = [] ↔ l = [] := by
  cases l with
  | nil => simp [sortBitrateDesc]
  | cons v rest =>
    simp only [sortBitrateDesc]
    constructor
    · intro h
      exact absurd h (insertBitrateDesc_ne_nil v (sortBitrateDesc rest))
    · intro h
      exact absurd h (by simp)

theorem sortBitrateDesc_head_max (l : List RawVariant) (b : RawVariant)
    (h : (sortBitrateDesc l).head? = some b) :
    b ∈ l ∧ ∀ x ∈ l, x.bitrate.getD 0 ≤ b.bitrate.getD 0 := by
  induction l generalizing b with
  | nil => simp [sortBitrateDesc] at h
  | cons v rest ih =>
    simp only [sortBitrateDesc] at h
    cases hs : sortBitrateDesc rest with
    | nil =>
      rw [hs] at h
      have hrest : rest = [] := (sortBitrateDesc_eq_nil rest).mp hs
      subst hrest
      simp only [insertBitrateDesc, List.head?_cons, Option.some.injEq] at h
      subst h
      exact ⟨List.mem_cons_self _ _, by simp⟩
    | cons w tsorted =>
      rw [hs] at h
      have hw := ih w (by rw [hs]; rfl)
      simp only [insertBitrateDesc] at h
      split at h
      · next hgt =>
        simp only [List.head?_cons, Option.some.injEq] at h
        subst h
        refine ⟨List.mem_cons_self _ _, ?_⟩
        intro x hx
        rcases List.mem_cons.mp hx with hxv | hxr
        · subst hxv; exact le_refl _
        · exact le_trans (hw.2 x hxr) hgt
      · next hle =>
        simp only [List.head?_cons, Option.some.injEq] at h
        subst h
        refine ⟨List.mem_cons_of_mem _ hw.1, ?_⟩
        intro x hx
        rcases List.mem_cons.mp hx with hxv | hxr
        · subst hxv; exact le_of_lt (not_le.mp hle)
        · exact hw.2 x hxr

/-- C8.  Among variants whose content type is `video/mp4`, the selected playable
variant is the one with the numerically highest declared bitrate; if no `video/mp4`
variant declares a bitrate, the first one in source order is selected; and the
`videoUrl` of a parsed media item is exactly the URL of that selected variant. -/
theorem c8_best_playable :
    (∀ (vs : List RawVariant) (v : RawVariant), v ∈ mp4Variants vs →
      v.bitrate.isSome = true →
      ∃ b, bestVariant vs = some b ∧ b ∈ mp4Variants vs ∧ b.bitrate.isSome = true ∧
        ∀ w ∈ mp4Variants vs, ∀ n : Int, w.bitrate = some n → n ≤ b.bitrate.getD 0) ∧
    (∀ vs : List RawVariant, (∀ w ∈ mp4Variants vs, w.bitrate = none) →
      bestVariant vs = (mp4Variants vs).head?) ∧
    (∀ (m : RawMedia) (vi : RawVideoInfo) (vs : List RawVariant),
      (m.type = some "video" ∨ m.type = some "animated_gif") →
      jsTruthyS m.media_url_https = true →
      m.video_info = some vi → vi.variants = some vs →
      ∃ item, mediaItemOf m = some item ∧
        item.videoUrl = (bestVariant vs).bind RawVariant.url) := by
  refine ⟨?_, ?_, ?_⟩
  · intro vs v hv hsome
    have hvwb : v ∈ (mp4Variants vs).filter (fun v => v.bitrate.isSome) :=
      List.mem_filter.mpr ⟨hv, hsome⟩
    cases hs : sortBitrateDesc ((mp4Variants vs).filter (fun v => v.bitrate.isSome)) with
    | nil =>
      have := (sortBitrateDesc_eq_nil _).mp hs
      rw [this] at hvwb
      simp at hvwb
    | cons b t =>
      have hmax := sortBitrateDesc_head_max _ b (by rw [hs]; rfl)
      have hbwb := hmax.1
      have hbm := List.mem_filter.mp hbwb
      refine ⟨b, by simp [bestVariant, hs], hbm.1, hbm.2, ?_⟩
      intro w hw n hn
      have hwwb : w ∈ (mp4Variants vs).filter (fun v => v.bitrate.isSome) :=
        List.mem_filter.mpr ⟨hw, by simp [hn]⟩
      have := hmax.2 w hwwb
      rw [hn] at this
      simpa using this
  · intro vs hnone
    have hwb : (mp4Variants vs).filter (fun v => v.bitrate.isSome) = [] := by
      rw [List.filter_eq_nil_iff]
      intro x hx
      simp [hnone x hx]
    simp [bestVariant, hwb, sortBitrateDesc]
  · intro m vi vs hty hurl hvi hvs
    simp only [jsTruthyS] at hurl
    rcases hty with h | h <;>
      simp [mediaItemOf, hurl, h, hvi, hvs, jsTruthyS]

/-- Witness for C8: two `video/mp4` variants with bitrates 500 and 1200 select the
1200-bitrate variant, and the media entity built from them carries its URL. -/
theorem c8_best_playable_witness :
    bestVariant [⟨some "video/mp4", some "u500", some 500⟩,
      ⟨some "video/mp4", some "u1200", some 1200⟩] =
      some ⟨some "video/mp4", some "u1200", some 1200⟩ ∧
    (500 : Int) ≤ (RawVariant.mk (some "video/mp4") (some "u1200") (some 1200)).bitrate.getD 0 ∧
    (mediaItemOf ⟨some "video", some "mu",  none,
      some ⟨some [⟨some "video/mp4", some "u500", some 500⟩,
        ⟨some "video/mp4", some "u1200", some 1200⟩], some 9000⟩⟩).bind
      TweetMedia.videoUrl = some "u1200" := by
  have hbv : bestVariant [⟨some "video/mp4", some "u500", some 500⟩,
      ⟨some "video/mp4", some "u1200", some 1200⟩] =
      some ⟨some "video/mp4", some "u1200", some 1200⟩ := by decide
  obtain ⟨b, hb, -, -, hmax⟩ := c8_best_playable.1
    [⟨some "video/mp4", some "u500", some 500⟩,
     ⟨some "video/mp4", some "u1200", some 1200⟩]
    ⟨some "video/mp4", some "u500", some 500⟩ (by decide) (by decide)
  have hbe : b = ⟨some "video/mp4", some "u1200", some 1200⟩ :=
    Option.some.inj (hb.symm.trans hbv)
  obtain ⟨item, hi, hv⟩ := c8_best_playable.2.2
    ⟨some "video", some "mu", none,
      some ⟨some [⟨some "video/mp4", some "u500", some 500⟩,
        ⟨some "video/mp4", some "u1200", some 1200⟩], some 9000⟩⟩
    ⟨some [⟨some "video/mp4", some "u500", some 500⟩,
      ⟨some "video/mp4", some "u1200", some 1200⟩], some 9000⟩
    [⟨some "video/mp4", some "u500", some 500⟩,
     ⟨some "video/mp4", some "u1200", some 1200⟩]
    (Or.inl rfl) (by decide) rfl rfl
  refine ⟨hbv, ?_, ?_⟩
  · have := hmax ⟨some "video/mp4", some "u500", some 500⟩ (by decide) 500 rfl
    rw [hbe] at this
    exact this
  · rw [hi]
    show item.videoUrl = some "u1200"
    rw [hv, hbv]
    rfl

-- ─────────────────────────────────────────────────────────────────
-- C9 — `getReplies` returns only direct replies and no cursor
-- ─────────────────────────────────────────────────────────────────

/-- Any value returned by `tryWithQueryIds` was produced by some attempted candidate
(in phase one or in the post-refresh phase). -/
theorem tryWithQueryIds_ok_mem {T : Type} (operation : String)
    (ids extraIds : List String) (refreshResult : Except String Unit)
    (freshIds : List String) (a1 a2 : String → AttemptOutcome T) (v : T)
    (h : (tryWithQueryIds operation ids extraIds refreshResult freshIds a1
      a2).outcome = Except.ok v) :
    (∃ q ∈ dedupList (ids ++ extraIds), (a1 q).result = some v) ∨
    (∃ q ∈ freshIds, (a2 q).result = some v) := by
  unfold tryWithQueryIds at h
  match hp1 : (phase1Loop a1 (dedupList (ids ++ extraIds)) "" false).1 with
  | some w =>
    simp only [hp1] at h
    simp at h
    subst h
    exact Or.inl (phase1Loop_success_mem a1 _ _ _ _ hp1)
  | none =>
    simp only [hp1] at h
    by_cases h4 : (phase1Loop a1 (dedupList (ids ++ extraIds)) "" false).2.2.1 = true
    · simp only [h4, if_true] at h
      match refreshResult with
      | Except.error e => simp at h
      | Except.ok u =>
        match hp2 : (phase2Loop a2 freshIds
            (phase1Loop a1 (dedupList (ids ++ extraIds)) "" false).2.1).1 with
        | some w =>
          simp only [hp2] at h
          simp at h
          subst h
          exact Or.inr (phase2Loop_success_mem a2 _ _ _ hp2)
        | none =>
          simp only [hp2] at h
          simp at h
    · have hf : (phase1Loop a1 (dedupList (ids ++ extraIds)) "" false).2.2.1 = false := by
        simpa using h4
      simp only [hf, Bool.false_eq_true, if_false] at h
      simp at h

/-- C9.  Every tweet in a successful `getReplies` result is a direct reply to the
requested tweet id (`inReplyToStatusId` equals it), and the result carries no
pagination cursor. -/
theorem c9_replies_filtered (tweetId : String) (quoteDepth : Nat)
    (ids : List String) (refreshResult : Except String Unit)
    (freshIds : List String) (net1 net2 : String → HttpResp) (r : TweetsResult)
    (h : (getReplies tweetId quoteDepth ids refreshResult freshIds net1
      net2).outcome = Except.ok r) :
    r.success = true ∧ r.nextCursor = none ∧
    ∀ t ∈ r.tweets.getD [], t.inReplyToStatusId = some tweetId := by
  have hm := tryWithQueryIds_ok_mem "TweetDetail" ids [] refreshResult freshIds
    (fun q => getRepliesAttempt tweetId quoteDepth (net1 q))
    (fun q => getRepliesAttempt tweetId quoteDepth (net2 q)) r h
  have hres : ∃ resp : HttpResp,
      (getRepliesAttempt tweetId quoteDepth resp).result = some r := by
    rcases hm with ⟨q, -, hq⟩ | ⟨q, -, hq⟩
    exacts [⟨net1 q, hq⟩, ⟨net2 q, hq⟩]
  obtain ⟨resp, hq⟩ := hres
  unfold getRepliesAttempt at hq
  split at hq
  · simp at hq
  · split at hq
    · simp at hq
    · simp only [Option.some.injEq] at hq
      subst hq
      refine ⟨rfl, rfl, ?_⟩
      intro t ht
      simp only [Option.getD_some] at ht
      have := (List.mem_filter.mp ht).2
      simpa using this

/-- Witness for C9: a thread containing one direct reply to tweet `100` and one
unrelated tweet yields exactly the direct reply and no cursor. -/
theorem c9_replies_filtered_witness :
    (TweetsResult.mk true none
      (some [Tweet.mk "11" "a reply" none none none none none (some "100") "alice"
        "alice" none none none none]) none).nextCursor = none ∧
    (Tweet.mk "11" "a reply" none none none none none (some "100") "alice" "alice"
      none none none none).inReplyToStatusId = some "100" := by
  have h := c9_replies_filtered "100" 1 ["qidA"] (Except.ok ()) []
    (fun _ => HttpResp.mk 200 ""
      (some [RawInstruction.mk (some
        [RawEntry.mk (some (RawEntryContent.mk
          (some (RawNode.mk (some "11")
            (some ⟨some ⟨some "alice", some "alice"⟩, none, none⟩) none none
            (some ⟨some "a reply", none, none, none, none, none, some "100", none,
              none⟩) none))
          none none none none)),
         RawEntry.mk (some (RawEntryContent.mk
          (some (RawNode.mk (some "22")
            (some ⟨some ⟨some "bob", some "bob"⟩, none, none⟩) none none
            (some ⟨some "other" , none, none, none, none, none, some "999", none,
              none⟩) none))
          none none none none))])]))
    (fun _ => HttpResp.mk 500 "" none)
    (TweetsResult.mk true none
      (some [Tweet.mk "11" "a reply" none none none none none (some "100") "alice"
        "alice" none none none none]) none)
    rfl
  exact ⟨h.2.1, h.2.2 _ (List.mem_singleton.mpr rfl)⟩

-- ─────────────────────────────────────────────────────────────────
-- C10 — paginated aggregation helpers
-- ─────────────────────────────────────────────────────────────────

theorem addPage_len (count : Nat) (ts : List Tweet) (seen : List String) (curLen : Nat)
    (h : curLen < count) :
    curLen + (addPage count ts seen curLen).2.length ≤ count := by
  induction ts generalizing seen curLen with
  | nil => simp [addPage]; omega
  | cons t rest ih =>
    simp only [addPage]
    split
    · exact ih seen curLen h
    · split
      next hstop => simp; omega
      next hcont =>
        have := ih (t.id :: seen) (curLen + 1) (by omega)
        simp only [List.length_cons]
        omega

theorem addPage_spec (count : Nat) (ts : List Tweet) (seen : List String) (curLen : Nat) :
    (∀ s ∈ seen, s ∈ (addPage count ts seen curLen).1) ∧
    (∀ t ∈ (addPage count ts seen curLen).2, t.id ∈ (addPage count ts seen curLen).1) ∧
    (∀ t ∈ (addPage count ts seen curLen).2, t.id ∉ seen) ∧
    ((addPage count ts seen curLen).2.map Tweet.id).Nodup := by
  induction ts generalizing seen curLen with
  | nil => simp [addPage]
  | cons t rest ih =>
    simp only [addPage]
    split
    next hc => exact ih seen curLen
    next hc =>
      have hcmem : t.id ∉ seen := by simpa using hc
      split
      next hstop =>
        refine ⟨?_, ?_, ?_, ?_⟩
        · intro s hs; exact List.mem_cons_of_mem _ hs
        · intro x hx
          simp only [List.mem_singleton] at hx
          subst hx
          exact List.mem_cons_self _ _
        · intro x hx
          simp only [List.mem_singleton] at hx
          subst hx
          exact hcmem
        · simp
      next hcont =>
        obtain ⟨ih1, ih2, ih3, ih4⟩ := ih (t.id :: seen) (curLen + 1)
        refine ⟨?_, ?_, ?_, ?_⟩
        · intro s hs; exact ih1 s (List.mem_cons_of_mem _ hs)
        · intro x hx
          rcases List.mem_cons.mp hx with rfl | hx'
          · exact ih1 x.id (List.mem_cons_self _ _)
          · exact ih2 x hx'
        · intro x hx
          rcases List.mem_cons.mp hx with rfl | hx'
          · exact hcmem
          · intro hmem; exact ih3 x hx' (List.mem_cons_of_mem _ hmem)
        · simp only [List.map_cons, List.nodup_cons]
          refine ⟨?_, ih4⟩
          intro hmem
          obtain ⟨x, hx, hxid⟩ := List.mem_map.mp hmem
          have := ih3 x hx
          rw [hxid] at this
          exact this (List.mem_cons_self _ _)

/-- Main invariant of the shared pagination loop: on success the collected list has
at most `count` tweets with pairwise-distinct ids, and the number of consumed pages
is bounded by `count + 1` (so the loop terminates after at most that many fetches). -/
theorem runPaged_spec (fetch : Nat → Nat → Option String → TweetsResult)
    (count maxPages : Nat) (seen : List String) (all : List Tweet)
    (cursor : Option String) (pages : Nat)
    (hseen : ∀ t ∈ all, t.id ∈ seen) (hnodup : (all.map Tweet.id).Nodup)
    (hlen : all.length ≤ count) (hpages : pages ≤ all.length) :
    ((runPaged fetch count maxPages seen all cursor pages).1.success = true →
      ∃ tl, (runPaged fetch count maxPages seen all cursor pages).1.tweets = some tl ∧
        tl.length ≤ count ∧ (tl.map Tweet.id).Nodup) ∧
    (runPaged fetch count maxPages seen all cursor pages).2 ≤ count + 1 := by
  rw [runPaged]
  split
  next hlt =>
    have hsp := addPage_spec count ((fetch pages all.length cursor).tweets.getD [])
      seen all.length
    have hln := addPage_len count ((fetch pages all.length cursor).tweets.getD [])
      seen all.length hlt
    have hseen' : ∀ t ∈ all ++ (addPage count
        ((fetch pages all.length cursor).tweets.getD []) seen all.length).2,
        t.id ∈ (addPage count ((fetch pages all.length cursor).tweets.getD [])
          seen all.length).1 := by
      intro t ht
      rcases List.mem_append.mp ht with h1 | h2
      · exact hsp.1 t.id (hseen t h1)
      · exact hsp.2.1 t h2
    have hnodup' : ((all ++ (addPage count
        ((fetch pages all.length cursor).tweets.getD []) seen all.length).2).map
          Tweet.id).Nodup := by
      rw [List.map_append]
      rw [List.nodup_append]
      refine ⟨hnodup, hsp.2.2.2, ?_⟩
      intro x hx1 hx2
      obtain ⟨t1, ht1, hid1⟩ := List.mem_map.mp hx1
      obtain ⟨t2, ht2, hid2⟩ := List.mem_map.mp hx2
      have hin : x ∈ seen := hid1 ▸ hseen t1 ht1
      have hout : x ∉ seen := hid2 ▸ hsp.2.2.1 t2 ht2
      exact hout hin
    have hlen' : (all ++ (addPage count
        ((fetch pages all.length cursor).tweets.getD []) seen all.length).2).length
          ≤ count := by
      rw [List.length_append]; omega
    simp only []
    split
    next hsucc =>
      split
      next => exact ⟨fun _ => ⟨_, rfl, hlen', hnodup'⟩, by omega⟩
      next =>
        split
        next => exact ⟨fun _ => ⟨_, rfl, hlen', hnodup'⟩, by omega⟩
        next =>
          split
          next => exact ⟨fun _ => ⟨_, rfl, hlen', hnodup'⟩, by omega⟩
          next hz =>
            split
            next => exact ⟨fun _ => ⟨_, rfl, hlen', hnodup'⟩, by omega⟩
            next =>
              have hpages' : pages + 1 ≤ (all ++ (addPage count
                  ((fetch pages all.length cursor).tweets.getD []) seen
                    all.length).2).length := by
                rw [List.length_append]; omega
              exact runPaged_spec fetch count maxPages _ _ _ _ hseen' hnodup'
                hlen' hpages'
    next hfail => exact ⟨by simp, by omega⟩
  next hge => exact ⟨fun _ => ⟨all, rfl, hlen, hnodup⟩, by omega⟩
termination_by count - all.length
decreasing_by
  simp only [List.length_append]
  omega

/-- C10.  Each paginated aggregation helper (`searchAll`, `getUserTweetsAll`,
`getBookmarksAll`) returns on success a tweet list of length at most `count` with
pairwise-distinct ids, and consumes at most `count + 1` pages (the loop stops on a
missing cursor, a repeated cursor, a page adding nothing new, reaching `count`, or
`maxPages`). -/
theorem c10_pagination :
    (∀ (fetchPage : Nat → Nat → Option String → TweetsResult) (count maxPages : Nat),
      ((searchAll fetchPage count maxPages).1.success = true →
        ∃ tl, (searchAll fetchPage count maxPages).1.tweets = some tl ∧
          tl.length ≤ count ∧ (tl.map Tweet.id).Nodup) ∧
      (searchAll fetchPage count maxPages).2 ≤ count + 1) ∧
    (∀ (fetchPage : Nat → Nat → Option String → TweetsResult) (count maxPages : Nat),
      ((getUserTweetsAll fetchPage count maxPages).1.success = true →
        ∃ tl, (getUserTweetsAll fetchPage count maxPages).1.tweets = some tl ∧
          tl.length ≤ count ∧ (tl.map Tweet.id).Nodup) ∧
      (getUserTweetsAll fetchPage count maxPages).2 ≤ count + 1) ∧
    (∀ (fetchPage : Nat → Nat → Option String → TweetsResult) (count maxPages : Nat),
      ((getBookmarksAll fetchPage count maxPages).1.success = true →
        ∃ tl, (getBookmarksAll fetchPage count maxPages).1.tweets = some tl ∧
          tl.length ≤ count ∧ (tl.map Tweet.id).Nodup) ∧
      (getBookmarksAll fetchPage count maxPages).2 ≤ count + 1) := by
  refine ⟨?_, ?_, ?_⟩ <;> intro fetchPage count maxPages <;>
    exact runPaged_spec _ count maxPages [] [] none 0 (by simp) (by simp) (by simp)
      (by simp)

/-- Witness for C10: a server that always returns one tweet page with no next cursor
makes every helper succeed after one page, within all bounds. -/
theorem c10_pagination_witness :
    (searchAll (fun _ _ _ => TweetsResult.mk true none
        (some [Tweet.mk "1" "x" none none none none none none "a" "a" none none none
          none]) none) 2 0).2 ≤ 3 ∧
    (getUserTweetsAll (fun _ _ _ => TweetsResult.mk true none
        (some [Tweet.mk "1" "x" none none none none none none "a" "a" none none none
          none]) none) 2 0).2 ≤ 3 ∧
    (getBookmarksAll (fun _ _ _ => TweetsResult.mk true none
        (some [Tweet.mk "1" "x" none none none none none none "a" "a" none none none
          none]) none) 2 0).2 ≤ 3 ∧
    ([Tweet.mk "1" "x" none none none none none none "a" "a" none none none
      none].length ≤ 2 ∧
     ([Tweet.mk "1" "x" none none none none none none "a" "a" none none none
      none].map Tweet.id).Nodup) := by
  have hsucc : (searchAll (fun _ _ _ => TweetsResult.mk true none
      (some [Tweet.mk "1" "x" none none none none none none "a" "a" none none none
        none]) none) 2 0).1.success = true := by
    simp [searchAll, runPaged, addPage, jsTruthyS, List.contains, List.elem]
  obtain ⟨tl, htl, hl, hn⟩ := (c10_pagination.1 (fun _ _ _ => TweetsResult.mk true none
      (some [Tweet.mk "1" "x" none none none none none none "a" "a" none none none
        none]) none) 2 0).1 hsucc
  have heval : (searchAll (fun _ _ _ => TweetsResult.mk true none
      (some [Tweet.mk "1" "x" none none none none none none "a" "a" none none none
        none]) none) 2 0).1.tweets =
      some [Tweet.mk "1" "x" none none none none none none "a" "a" none none none
        none] := by
    simp [searchAll, runPaged, addPage, jsTruthyS, List.contains, List.elem]
  have htle : tl = [Tweet.mk "1" "x" none none none none none none "a" "a" none none
      none none] := Option.some.inj (htl.symm.trans heval)
  subst htle
  exact ⟨(c10_pagination.1 _ 2 0).2, (c10_pagination.2.1 _ 2 0).2,
    (c10_pagination.2.2 _ 2 0).2, hl, hn⟩
